import Mathlib

/-!
Verification of the read-it-later ingestion/render pipeline:
HTML fragment model, sanitizer policy, backend ingestion (fetch →
extract → persist), categorizer fallback, and the frontend listing
and category-filter logic.
-/

namespace Library

/-! ## HTML fragment model

An extracted article fragment is a forest of DOM nodes: text nodes and
elements carrying a tag name, an attribute list (name/value pairs) and
children.  A mutual inductive keeps all recursion structural. -/

mutual

inductive HNode : Type where
  | text (s : String) : HNode
  | elmt (tag : String) (attrs : List (String × String)) (children : HNodes) : HNode

inductive HNodes : Type where
  | nil : HNodes
  | cons (n : HNode) (ns : HNodes) : HNodes

end

/-- Concatenation of two node forests. -/
def HNodes.append : HNodes → HNodes → HNodes
  | .nil, ms => ms
  | .cons n ns, ms => .cons n (ns.append ms)

/-! ## Sanitizer

Modelled from the spec: the renderer calls DOMPurify.sanitize on the
stored content (frontend read page); the sanitizer library itself is not
part of this repository, so its policy is taken from the spec: an
allow-list of structural/text-formatting tags, a per-tag attribute
allow-list with event-handler attributes always stripped, URI schemes in
href/src restricted to http/https/mailto, and script/iframe/object/
embed/form removed wholesale. -/

/-- Tags removed together with their entire subtree. -/
def DROP_TAGS : List String := ["script", "iframe", "object", "embed", "form"]

/-- The structural/text-formatting tag allow-list. -/
def ALLOWED_TAGS : List String :=
  ["p", "h1", "h2", "h3", "h4", "h5", "h6", "ul", "ol", "li",
   "em", "strong", "b", "i", "a", "img", "blockquote",
   "table", "thead", "tbody", "tr", "td", "th", "br"]

/-- Attribute names permitted on a given tag. -/
def attrAllowList (tag : String) : List String :=
  if tag = "a" then ["href"]
  else if tag = "img" then ["src", "alt"]
  else []

/-- ASCII lower-casing of one character. -/
def lowerChar (c : Char) : Char :=
  if 'A' ≤ c ∧ c ≤ 'Z' then Char.ofNat (c.toNat + 32) else c

/-- The characters before the first colon, or none when no colon occurs. -/
def takeScheme : List Char → Option (List Char)
  | [] => none
  | c :: cs => if c = ':' then some [] else (takeScheme cs).map (c :: ·)

/-- The scheme of a URI value: the (lower-cased) part before the first
colon, or none when the value has no colon. -/
def schemeOf (v : String) : Option String :=
  (takeScheme v.toList).map (fun cs => String.mk (cs.map lowerChar))

/-- URI schemes the sanitizer accepts in href/src values. -/
def SAFE_SCHEMES : List String := ["http", "https", "mailto"]

/-- A URI value is safe when it has no scheme or an allow-listed one. -/
def safeUri (v : String) : Bool :=
  match schemeOf v with
  | none => true
  | some s => SAFE_SCHEMES.contains s

/-- Whether a single attribute survives sanitization on a given tag:
its name must be allow-listed for the tag, and href/src values must
carry a safe scheme. -/
def attrOk (tag : String) (a : String × String) : Bool :=
  (attrAllowList tag).contains a.1 &&
    (if a.1 = "href" || a.1 = "src" then safeUri a.2 else true)

/-- Keep only the attributes that survive sanitization. -/
def filterAttrs (tag : String) (attrs : List (String × String)) :
    List (String × String) :=
  attrs.filter (attrOk tag)

mutual

/-- Sanitize one node: text survives; drop-listed elements vanish with
their subtree; allow-listed elements keep filtered attributes and
sanitized children; any other element is unwrapped into its sanitized
children. -/
def sanitizeNode : HNode → HNodes
  | .text s => .cons (.text s) .nil
  | .elmt tag attrs children =>
    if DROP_TAGS.contains tag then .nil
    else if ALLOWED_TAGS.contains tag then
      .cons (.elmt tag (filterAttrs tag attrs) (sanitizeForest children)) .nil
    else sanitizeForest children

/-- Sanitize a forest of nodes. -/
def sanitizeForest : HNodes → HNodes
  | .nil => .nil
  | .cons n ns => (sanitizeNode n).append (sanitizeForest ns)

end

/-- The sanitizer entry point over a parse result: an unparseable
fragment (none) degrades to the empty, safe forest. -/
def sanitize : Option HNodes → HNodes
  | none => .nil
  | some ns => sanitizeForest ns

/-! ### Safety observers on rendered fragments -/

mutual

/-- Does this node contain a script element anywhere? -/
def hasScriptN : HNode → Bool
  | .text _ => false
  | .elmt tag _ children => tag == "script" || hasScriptF children

/-- Does this forest contain a script element anywhere? -/
def hasScriptF : HNodes → Bool
  | .nil => false
  | .cons n ns => hasScriptN n || hasScriptF ns

end

/-- An event-handler attribute name (onerror, onclick, ...): the name
begins with "on". -/
def isEventName (n : String) : Bool :=
  match n.toList with
  | c1 :: c2 :: _ => c1 = 'o' && c2 = 'n'
  | _ => false

mutual

/-- Does this node carry an event-handler attribute anywhere? -/
def hasEventAttrN : HNode → Bool
  | .text _ => false
  | .elmt _ attrs children =>
    attrs.any (fun a => isEventName a.1) || hasEventAttrF children

/-- Does this forest carry an event-handler attribute anywhere? -/
def hasEventAttrF : HNodes → Bool
  | .nil => false
  | .cons n ns => hasEventAttrN n || hasEventAttrF ns

end

/-- An href/src attribute whose value uses the javascript scheme. -/
def isJsUriAttr (a : String × String) : Bool :=
  (a.1 == "href" || a.1 == "src") && schemeOf a.2 == some "javascript"

mutual

/-- Does this node carry a javascript-scheme href/src anywhere? -/
def hasJsUriN : HNode → Bool
  | .text _ => false
  | .elmt _ attrs children => attrs.any isJsUriAttr || hasJsUriF children

/-- Does this forest carry a javascript-scheme href/src anywhere? -/
def hasJsUriF : HNodes → Bool
  | .nil => false
  | .cons n ns => hasJsUriN n || hasJsUriF ns

end

/-! ### The clean invariant: exactly what sanitized output looks like -/

mutual

/-- A node is clean when its tag is allow-listed, all its attributes
pass the attribute policy, and its children are clean. -/
def cleanN : HNode → Bool
  | .text _ => true
  | .elmt tag attrs children =>
    ALLOWED_TAGS.contains tag && attrs.all (attrOk tag) && cleanF children

/-- A forest is clean when all its nodes are. -/
def cleanF : HNodes → Bool
  | .nil => true
  | .cons n ns => cleanN n && cleanF ns

end

theorem cleanF_append (a b : HNodes) :
    cleanF (a.append b) = (cleanF a && cleanF b) := by
  cases a with
  | nil => simp [HNodes.append, cleanF]
  | cons n ns => simp [HNodes.append, cleanF, cleanF_append ns b, Bool.and_assoc]

mutual

theorem cleanF_sanitizeNode (n : HNode) : cleanF (sanitizeNode n) = true := by
  cases n with
  | text s => simp [sanitizeNode, cleanF, cleanN]
  | elmt tag attrs children =>
    by_cases hd : tag ∈ DROP_TAGS
    · simp [sanitizeNode, hd, cleanF]
    · by_cases ha : tag ∈ ALLOWED_TAGS
      · simp [sanitizeNode, hd, ha, cleanF, cleanN, cleanF_sanitizeForest children,
          filterAttrs, List.all_eq_true, List.mem_filter]
      · simp [sanitizeNode, hd, ha, cleanF_sanitizeForest children]

theorem cleanF_sanitizeForest (ns : HNodes) : cleanF (sanitizeForest ns) = true := by
  cases ns with
  | nil => simp [sanitizeForest, cleanF]
  | cons n ns =>
    simp [sanitizeForest, cleanF_append, cleanF_sanitizeNode n,
      cleanF_sanitizeForest ns]

end

/-- Every allow-listed tag is outside the drop list. -/
theorem allowed_not_dropped {t : String} (h : t ∈ ALLOWED_TAGS) :
    t ∉ DROP_TAGS := by
  fin_cases h <;> decide

theorem filter_attrOk_of_all {tag : String} {attrs : List (String × String)}
    (h : attrs.all (attrOk tag) = true) : filterAttrs tag attrs = attrs := by
  simp only [List.all_eq_true] at h
  simpa [filterAttrs, List.filter_eq_self] using h

mutual

theorem sanitizeNode_of_clean (n : HNode) (h : cleanN n = true) :
    sanitizeNode n = .cons n .nil := by
  cases n with
  | text s => simp [sanitizeNode]
  | elmt tag attrs children =>
    simp only [cleanN, Bool.and_eq_true, List.contains_eq_any_beq] at h
    obtain ⟨⟨ha, hattrs⟩, hc⟩ := h
    have ha2 : tag ∈ ALLOWED_TAGS := by
      have := List.any_eq_true.mp ha
      obtain ⟨x, hx, he⟩ := this
      rwa [show x = tag from (beq_iff_eq.mp he).symm] at hx
    simp [sanitizeNode, allowed_not_dropped ha2, ha2,
      filter_attrOk_of_all hattrs, sanitizeForest_of_clean children hc]

theorem sanitizeForest_of_clean (ns : HNodes) (h : cleanF ns = true) :
    sanitizeForest ns = ns := by
  cases ns with
  | nil => simp [sanitizeForest]
  | cons n ns =>
    simp only [cleanF, Bool.and_eq_true] at h
    simp [sanitizeForest, sanitizeNode_of_clean n h.1,
      sanitizeForest_of_clean ns h.2, HNodes.append]

end

/-- Allow-listed attribute names are only href, src or alt. -/
theorem attrAllow_sub {tag n : String} (h : n ∈ attrAllowList tag) :
    n = "href" ∨ n = "src" ∨ n = "alt" := by
  unfold attrAllowList at h
  split_ifs at h <;> simp_all

/-- A safe URI value never has the javascript scheme. -/
theorem safeUri_not_js {v : String} (h : safeUri v = true) :
    (schemeOf v == some "javascript") = false := by
  unfold safeUri at h
  cases hs : schemeOf v with
  | none => simp [hs]
  | some s =>
    rw [hs] at h
    have hm : s ∈ SAFE_SCHEMES := by simpa using h
    have hne : s ≠ "javascript" := by
      intro he
      subst he
      exact absurd hm (by decide)
    simp [hs, hne]

/-- An attribute that survives the policy is neither an event handler
nor a javascript-scheme href/src. -/
theorem attrOk_safe {tag : String} {a : String × String}
    (h : attrOk tag a = true) :
    isEventName a.1 = false ∧ isJsUriAttr a = false := by
  simp only [attrOk, Bool.and_eq_true] at h
  obtain ⟨hn, hv⟩ := h
  have hn2 : a.1 ∈ attrAllowList tag := by simpa using hn
  rcases attrAllow_sub hn2 with h1 | h1 | h1
  · refine ⟨by rw [h1]; decide, ?_⟩
    rw [h1] at hv
    simp only [if_pos (by decide : ("href" = "href" || "href" = "src") = true)] at hv
    simp [isJsUriAttr, h1, safeUri_not_js hv]
  · refine ⟨by rw [h1]; decide, ?_⟩
    rw [h1] at hv
    simp only [if_pos (by decide : ("src" = "href" || "src" = "src") = true)] at hv
    simp [isJsUriAttr, h1, safeUri_not_js hv]
  · exact ⟨by rw [h1]; decide, by simp [isJsUriAttr, h1]⟩

mutual

theorem safeN_of_clean (n : HNode) (h : cleanN n = true) :
    hasScriptN n = false ∧ hasEventAttrN n = false ∧ hasJsUriN n = false := by
  cases n with
  | text s => simp [hasScriptN, hasEventAttrN, hasJsUriN]
  | elmt tag attrs children =>
    simp only [cleanN, Bool.and_eq_true] at h
    obtain ⟨⟨ha, hattrs⟩, hc⟩ := h
    have ha2 : tag ∈ ALLOWED_TAGS := by simpa using ha
    have htag : tag ≠ "script" := by
      intro he
      subst he
      exact absurd ha2 (by decide)
    have hrec := safeF_of_clean children hc
    have hall := List.all_eq_true.mp hattrs
    refine ⟨?_, ?_, ?_⟩
    · simp [hasScriptN, htag, hrec.1]
    · simp only [hasEventAttrN, Bool.or_eq_false_iff]
      refine ⟨?_, hrec.2.1⟩
      simp only [List.any_eq_false]
      intro a hmem
      simp [(attrOk_safe (hall a hmem)).1]
    · simp only [hasJsUriN, Bool.or_eq_false_iff]
      refine ⟨?_, hrec.2.2⟩
      simp only [List.any_eq_false]
      intro a hmem
      simp [(attrOk_safe (hall a hmem)).2]

theorem safeF_of_clean (ns : HNodes) (h : cleanF ns = true) :
    hasScriptF ns = false ∧ hasEventAttrF ns = false ∧ hasJsUriF ns = false := by
  cases ns with
  | nil => simp [hasScriptF, hasEventAttrF, hasJsUriF]
  | cons n ns =>
    simp only [cleanF, Bool.and_eq_true] at h
    have h1 := safeN_of_clean n h.1
    have h2 := safeF_of_clean ns h.2
    simp [hasScriptF, hasEventAttrF, hasJsUriF,
      h1.1, h1.2.1, h1.2.2, h2.1, h2.2.1, h2.2.2]

end

/-- C1: for every input fragment, the sanitizer's output contains no
script element, no event-handler attribute, and no javascript-scheme
URI in href or src. -/
theorem sanitize_output_safe (o : Option HNodes) :
    hasScriptF (sanitize o) = false ∧
    hasEventAttrF (sanitize o) = false ∧
    hasJsUriF (sanitize o) = false := by
  cases o with
  | none => simp [sanitize, hasScriptF, hasEventAttrF, hasJsUriF]
  | some ns => exact safeF_of_clean _ (cleanF_sanitizeForest ns)

/-- C2: the sanitizer is idempotent — sanitizing an already sanitized
fragment changes nothing. -/
theorem sanitize_idempotent (o : Option HNodes) :
    sanitize (some (sanitize o)) = sanitize o := by
  cases o with
  | none => simp [sanitize, sanitizeForest]
  | some ns =>
    exact sanitizeForest_of_clean _ (cleanF_sanitizeForest ns)

/-! ## Backend data model and ingestion

Translated from the backend main.py reproduced in the blog sources:
the links table row, the add_link endpoint (fetch via requests,
raise_for_status, readability extraction of title and content, one
insert), and the get_links endpoint (select all ordered by created_at
descending). -/

/-- A persisted links-table row.  The content column stores the
extracted fragment; the category column is null until the (phase 3)
classifier fills it, hence an Option. -/
structure Link where
  id : Nat
  url : String
  title : String
  content : HNodes
  category : Option String
  created_at : Nat

/-- A fetch failure: non-success HTTP status (raise_for_status),
transport failure, or timeout. -/
inductive FetchErr : Type where
  | httpStatus (code : Nat) : FetchErr
  | transport (msg : String) : FetchErr
  | timeout : FetchErr
deriving DecidableEq

/-- The message str(e) carried by the raised exception. -/
def FetchErr.describe : FetchErr → String
  | .httpStatus c => "HTTP status " ++ toString c
  | .transport m => m
  | .timeout => "timeout"

/-- The text encoding of a fetched page, declared by the server or
inferred by the HTTP client. -/
inductive Encoding : Type where
  | utf8 : Encoding
  | latin1 : Encoding
deriving DecidableEq

/-- UTF-8 decoding of a byte stream (one- and two-byte sequences;
truncated sequences are dropped). -/
def utf8Decode : List Nat → List Char
  | [] => []
  | [b] => if b < 128 then [Char.ofNat b] else []
  | b :: b2 :: bs =>
    if b < 128 then Char.ofNat b :: utf8Decode (b2 :: bs)
    else Char.ofNat ((b - 192) * 64 + (b2 - 128)) :: utf8Decode bs

/-- Latin-1 decoding: each byte is one character. -/
def latin1Decode (bs : List Nat) : List Char := bs.map Char.ofNat

/-- The raw fetched page: response body bytes plus the declared or
inferred encoding. -/
structure RawPage where
  bytes : List Nat
  encoding : Encoding

/-- requests page.text: the body bytes decoded with the page's
declared or inferred encoding. -/
def RawPage.text (p : RawPage) : String :=
  match p.encoding with
  | .utf8 => String.mk (utf8Decode p.bytes)
  | .latin1 => String.mk (latin1Decode p.bytes)

/-- The external collaborators the orchestrator calls: the HTTP fetch
(requests.get + raise_for_status, collapsed into one outcome) and the
readability extraction Document(text) ↦ (title, summary fragment).
Both are injected, matching the design notes. -/
structure Collaborators where
  fetch : String → Except FetchErr RawPage
  extract : String → String × HNodes

/-- The record built on the success path of add_link: readability runs
on page.text, and the row stores the extracted title and the raw
extracted content; the category column is not set (phase 2 schema). -/
def ingest (c : Collaborators) (nextId now : Nat) (url : String)
    (page : RawPage) : Link :=
  let ex := c.extract page.text
  ⟨nextId, url, ex.1, ex.2, none, now⟩

/-- Backend add_link: fetch the URL; any fetch failure raises and is
surfaced as a single HTTP 500 error carrying str(e), inserting
nothing; on success exactly one fully-populated row is inserted. -/
def add_link (c : Collaborators) (store : List Link) (nextId now : Nat)
    (url : String) : List Link × Except String Link :=
  match c.fetch url with
  | .error e => (store, .error ("500: " ++ e.describe))
  | .ok page =>
    let row := ingest c nextId now url page
    (store ++ [row], .ok row)

/-- Backend get_links: select all rows ordered by created_at
descending (newest first). -/
def get_links (store : List Link) : List Link :=
  store.mergeSort (fun a b => decide (b.created_at ≤ a.created_at))

/-- Read-time rendering (frontend ReadPage): sanitize the stored
content before injecting it into the page.  A pure function of the
record; the store is not touched. -/
def readRender (l : Link) : HNodes := sanitize (some l.content)

/-! ## Categorizer -/

/-- The closed category set shared between the classifier and the
frontend filter UI (page.tsx lists these after "All"). -/
def CATEGORIES8 : List String :=
  ["Technology", "History", "Health & Wellness", "Science",
   "Business & Finance", "Arts & Culture", "Productivity", "Other"]

/-- The frontend CATEGORIES constant from page.tsx. -/
def CATEGORIES : List String := "All" :: CATEGORIES8

/-- What a single classification attempt can come back with. -/
inductive ClassifyOutcome : Type where
  | label (s : String) : ClassifyOutcome
  | backendFailure : ClassifyOutcome
  | timeout : ClassifyOutcome
deriving DecidableEq

/-- Modelled from the spec: the categorizer itself (phase 3 backend
code) is not among the source files; per the spec it validates the
backend's label against the closed category set and resolves backend
failure, timeout, or an out-of-set label to Other, never propagating
an error. -/
def resolveCategory : ClassifyOutcome → String
  | .label s => if CATEGORIES8.contains s then s else "Other"
  | .backendFailure => "Other"
  | .timeout => "Other"

/-! ## MVP title extraction

Translated from backend main.py (part 1 of the blog):
title = soup.title.string if soup.title else "No title found".
BeautifulSoup semantics: soup.title is the title Tag when the document
has one (a Tag is always truthy); Tag.string is the tag's single
string child, and None when the element is empty. -/

/-- The title element as BeautifulSoup sees it: its string child, or
none for an empty element. -/
structure TitleTag where
  string : Option String
deriving DecidableEq

/-- The parsed document, restricted to what the MVP title logic
reads. -/
structure SoupDoc where
  titleTag : Option TitleTag
deriving DecidableEq

/-- The MVP title expression; the result is None exactly when Python's
is. -/
def mvpTitle (d : SoupDoc) : Option String :=
  match d.titleTag with
  | some t => t.string
  | none => some "No title found"

/-! ## Frontend list filtering

Translated from page.tsx: the Link interface of the list page (id,
url, title, created_at, optional category) and the filteredLinks memo:
if the active filter is "All" return links unchanged, otherwise keep
the links whose category strictly equals the active filter. -/

/-- The frontend list-page link record; category is optional. -/
structure FrontLink where
  id : Nat
  url : String
  title : String
  created_at : Nat
  category : Option String
deriving DecidableEq

/-- filteredLinks from page.tsx. -/
def filteredLinks (activeFilter : String) (links : List FrontLink) :
    List FrontLink :=
  if activeFilter = "All" then links
  else links.filter (fun l => l.category == some activeFilter)

/-! ## Concrete instances used by the witnesses -/

/-- The spec scenario fragment: an img with src and an onerror
handler. -/
def imgFrag : HNodes :=
  .cons (.elmt "img" [("src", "x"), ("onerror", "alert(1)")] .nil) .nil

/-- A small fetched page ("&lt;p&gt;" as UTF-8 bytes). -/
def demoPage : RawPage := ⟨[60, 112, 62], .utf8⟩

/-- Collaborators whose fetch succeeds and whose extractor returns the
scenario fragment. -/
def demoCollab : Collaborators :=
  ⟨fun _ => .ok demoPage, fun _ => ("T", imgFrag)⟩

/-- Collaborators whose fetch fails with HTTP 404. -/
def failCollab : Collaborators :=
  ⟨fun _ => .error (.httpStatus 404), fun _ => ("", .nil)⟩

/-- A categorized and an uncategorized frontend link. -/
def demoFront1 : FrontLink := ⟨1, "u", "a", 10, some "Technology"⟩

/-- A frontend link whose category is absent. -/
def demoFront2 : FrontLink := ⟨2, "v", "b", 20, none⟩

/-- A two-element frontend link list. -/
def demoFronts : List FrontLink := [demoFront1, demoFront2]

/-! ## Claim theorems -/

/-- C3: ingestion persists the content field in its raw untrusted form
(an event-handler attribute in the extracted fragment is retained in
the stored record), and sanitization is applied only at read time,
derived from the stored value — the rendered output is the sanitizer
applied to the stored content, and the raw form never reaches the
render surface unsanitized. -/
theorem content_persisted_raw_sanitized_at_read
    (c : Collaborators) (store : List Link) (nextId now : Nat) (url : String)
    (page : RawPage) (ti : String) (co : HNodes)
    (hf : c.fetch url = .ok page) (he : c.extract page.text = (ti, co)) :
    (add_link c store nextId now url).1
        = store ++ [⟨nextId, url, ti, co, none, now⟩] ∧
    (hasEventAttrF co = true →
      hasEventAttrF (Link.content ⟨nextId, url, ti, co, none, now⟩) = true) ∧
    readRender ⟨nextId, url, ti, co, none, now⟩ = sanitizeForest co ∧
    hasEventAttrF (readRender ⟨nextId, url, ti, co, none, now⟩) = false := by
  refine ⟨?_, fun h => h, rfl, ?_⟩
  · simp [add_link, hf, ingest, he]
  · exact (safeF_of_clean _ (cleanF_sanitizeForest co)).2.1

/-- Witness for C3 at the spec scenario: the stored record retains the
onerror attribute while the sanitized read-time output keeps the img
tag and its src but drops onerror. -/
theorem content_persisted_raw_sanitized_at_read_witness :
    ((add_link demoCollab [] 1 5 "http://e.com").1
        = [] ++ [⟨1, "http://e.com", "T", imgFrag, none, 5⟩] ∧
     (hasEventAttrF imgFrag = true →
       hasEventAttrF (Link.content ⟨1, "http://e.com", "T", imgFrag, none, 5⟩)
         = true) ∧
     readRender ⟨1, "http://e.com", "T", imgFrag, none, 5⟩
         = sanitizeForest imgFrag ∧
     hasEventAttrF (readRender ⟨1, "http://e.com", "T", imgFrag, none, 5⟩)
         = false) ∧
    hasEventAttrF imgFrag = true ∧
    sanitizeForest imgFrag = .cons (.elmt "img" [("src", "x")] .nil) .nil :=
  ⟨content_persisted_raw_sanitized_at_read demoCollab [] 1 5 "http://e.com"
    demoPage "T" imgFrag rfl rfl, rfl, rfl⟩

/-- C4: every classification outcome — success, backend failure,
timeout, or a label outside the set — resolves to a category in the
closed eight-label set, never any other string and never null. -/
theorem resolveCategory_in_closed_set (o : ClassifyOutcome) :
    resolveCategory o ∈ CATEGORIES8 := by
  cases o with
  | label s =>
    simp only [resolveCategory]
    split
    · rename_i h
      simpa using h
    · decide
  | backendFailure => decide
  | timeout => decide

/-- C5: when the fetch stage fails, add_link leaves the store exactly
as it was and returns a single error carrying the underlying cause; no
partial record is written. -/
theorem fetch_failure_persists_nothing
    (c : Collaborators) (store : List Link) (nextId now : Nat) (url : String)
    (e : FetchErr) (hf : c.fetch url = .error e) :
    add_link c store nextId now url
      = (store, .error ("500: " ++ e.describe)) := by
  simp [add_link, hf]

/-- Witness for C5: a 404 fetch on an empty store persists nothing and
reports the one error. -/
theorem fetch_failure_persists_nothing_witness :
    add_link failCollab [] 1 5 "http://e.com"
      = ([], .error ("500: " ++ FetchErr.describe (.httpStatus 404))) :=
  fetch_failure_persists_nothing failCollab [] 1 5 "http://e.com"
    (.httpStatus 404) rfl

/-- C6 counterexample: on a page whose title element is present but
empty, the MVP title expression yields Python None (soup.title is
truthy, its .string is None), not the sentinel — so the title is not
always the sentinel on empty titles and not always non-empty. -/
theorem mvpTitle_empty_title_counterexample :
    mvpTitle ⟨some ⟨none⟩⟩ = none ∧
    mvpTitle ⟨some ⟨none⟩⟩ ≠ some "No title found" :=
  ⟨rfl, by decide⟩

/-- C6 amended: the sentinel "No title found" is used exactly when the
title element is absent; when the element is present but empty, the
title is null rather than the sentinel. -/
theorem mvpTitle_fallback (d : SoupDoc) :
    (d.titleTag = none → mvpTitle d = some "No title found") ∧
    (d.titleTag = some ⟨none⟩ → mvpTitle d = none) := by
  constructor
  · intro h
    simp [mvpTitle, h]
  · intro h
    simp [mvpTitle, h]

/-- Witness for C6 amended: a document with no title element gets the
sentinel. -/
theorem mvpTitle_fallback_witness :
    mvpTitle ⟨none⟩ = some "No title found" :=
  (mvpTitle_fallback ⟨none⟩).1 rfl

/-- C7: the ingested record depends on the fetched bytes only through
their decoding with the page's declared or inferred encoding — two
pages with the same decoded text produce the same extracted record, so
structural analysis never sees raw bytes. -/
theorem extraction_uses_decoded_text
    (c : Collaborators) (nextId now : Nat) (url : String)
    (p1 p2 : RawPage) (h : p1.text = p2.text) :
    ingest c nextId now url p1 = ingest c nextId now url p2 := by
  simp [ingest, h]

/-- Witness for C7: a two-byte UTF-8 page and a one-byte Latin-1 page
with different raw bytes but the same decoded text ingest
identically. -/
theorem extraction_uses_decoded_text_witness :
    (⟨[195, 169], .utf8⟩ : RawPage).bytes
        ≠ (⟨[233], .latin1⟩ : RawPage).bytes ∧
    ingest demoCollab 1 5 "u" ⟨[195, 169], .utf8⟩
        = ingest demoCollab 1 5 "u" ⟨[233], .latin1⟩ :=
  ⟨by decide, extraction_uses_decoded_text demoCollab 1 5 "u" _ _ rfl⟩

/-- C8: the listing operation returns all stored records (a
permutation of the store) ordered by created_at descending. -/
theorem get_links_newest_first (store : List Link) :
    (get_links store).Pairwise (fun a b => b.created_at ≤ a.created_at) ∧
    (get_links store).Perm store := by
  constructor
  · unfold get_links
    refine List.Pairwise.imp ?_ (List.sorted_mergeSort ?_ ?_ store)
    · intro a b h
      simpa using h
    · intro a b c hab hbc
      simp only [decide_eq_true_eq] at hab hbc ⊢
      exact le_trans hbc hab
    · intro a b
      simp only [Bool.or_eq_true, decide_eq_true_eq]
      exact Nat.le_total b.created_at a.created_at
  · unfold get_links
    exact List.mergeSort_perm store _

/-- C9: for a category label other than "All", the filter returns
exactly the subsequence of links whose category equals the label — a
sublist (same relative order) whose members, with multiplicity, are
precisely the matching links. -/
theorem filteredLinks_exact (f : String) (links : List FrontLink)
    (hf : f ≠ "All") :
    (filteredLinks f links).Sublist links ∧
    (∀ x, x ∈ filteredLinks f links ↔ x ∈ links ∧ x.category = some f) ∧
    (∀ x, (filteredLinks f links).count x =
      if x.category = some f then links.count x else 0) := by
  unfold filteredLinks
  rw [if_neg hf]
  refine ⟨List.filter_sublist _, ?_, ?_⟩
  · intro x
    simp [List.mem_filter]
  · intro x
    by_cases hx : x.category = some f
    · rw [if_pos hx]
      exact List.count_filter (by simp [hx])
    · rw [if_neg hx]
      rw [List.count_eq_zero]
      simp [List.mem_filter, hx]

/-- Witness for C9 at the Technology filter on a two-link list. -/
theorem filteredLinks_exact_witness :
    (filteredLinks "Technology" demoFronts).Sublist demoFronts ∧
    (∀ x, x ∈ filteredLinks "Technology" demoFronts ↔
      x ∈ demoFronts ∧ x.category = some "Technology") ∧
    (∀ x, (filteredLinks "Technology" demoFronts).count x =
      if x.category = some "Technology" then demoFronts.count x else 0) :=
  filteredLinks_exact "Technology" demoFronts (by decide)

/-- C10: a record with no category is excluded by each of the eight
specific category filters and included only under "All", which returns
the list unchanged. -/
theorem absent_category_filtering (links : List FrontLink) :
    filteredLinks "All" links = links ∧
    (∀ f, f ∈ CATEGORIES8 → ∀ x, x ∈ links → x.category = none →
      x ∉ filteredLinks f links) := by
  constructor
  · simp [filteredLinks]
  · intro f hf x hx hcat
    have hfa : f ≠ "All" := by
      intro he
      subst he
      exact absurd hf (by decide)
    simp [filteredLinks, hfa, List.mem_filter, hcat]

/-- Witness for C10: the uncategorized link is dropped by the
Technology filter. -/
theorem absent_category_filtering_witness :
    demoFront2 ∉ filteredLinks "Technology" demoFronts :=
  (absent_category_filtering demoFronts).2 "Technology" (by decide)
    demoFront2 (by decide) rfl

end Library
